import Mathlib

/-!
Verification of the material state & property evaluation engine of the
adamantine repository (`source/MaterialProperty.templates.hh`,
`source/MechanicalPhysics.cc`).

The C++ `double` arithmetic of the kernels is modelled exactly over `ℚ`.
The one place where IEEE arithmetic produces an undefined value (NaN) is
the division `(T - solidus) / (liquidus - solidus)` when
`liquidus = solidus`; that fallible computation is modelled with
`Option ℚ`, `none` marking the division by zero.
-/

namespace Adamantine

/-- Per-material scalar entries read by the update kernel
(`properties_view(material_id, ...)` in `MaterialProperty::update`). -/
structure Material where
  solidus : ℚ
  liquidus : ℚ
  latent_heat : ℚ
  radiation_temperature_infty : ℚ

/-- Per-unit phase fractions, one slot per `MaterialState`
(`state_view(liquid/powder/solid, dof)` in the C++ code). -/
structure MatState where
  liquid : ℚ
  powder : ℚ
  solid : ℚ
deriving DecidableEq

/-- The liquid-ratio computation of `MaterialProperty::update`
(MaterialProperty.templates.hh lines 303-309):

  if (T < solidus) liquid_ratio = 0;
  else if (T > liquidus) liquid_ratio = 1;
  else liquid_ratio = (T - solidus) / (liquidus - solidus);

`none` models the case where the final branch divides by zero
(IEEE `0/0 = NaN`), which happens exactly when the branch is reached
with `liquidus = solidus`. -/
def liquid_ratio (m : Material) (T : ℚ) : Option ℚ :=
  if T < m.solidus then some 0
  else if m.liquidus < T then some 1
  else if m.liquidus - m.solidus = 0 then none
  else some ((T - m.solidus) / (m.liquidus - m.solidus))

/-- The phase-fraction update of `MaterialProperty::update`
(MaterialProperty.templates.hh lines 299-321):

  powder_ratio = std::min(1. - liquid_ratio, state_view(powder, dof));
  solid_ratio  = std::max(1 - liquid_ratio - powder_ratio, 0.);

followed by writing the three fractions back. -/
def updateState (m : Material) (T : ℚ) (prev : MatState) : Option MatState :=
  (liquid_ratio m T).map fun lr =>
    let pr := min (1 - lr) prev.powder
    let sr := max (1 - lr - pr) 0
    ⟨lr, pr, sr⟩

/-- A sequence of `update` calls on one unit, one representative
temperature per call. -/
def runUpdates (m : Material) (init : MatState) : List ℚ → Option MatState
  | [] => some init
  | T :: rest => (updateState m T init).bind fun st => runUpdates m st rest

/-- The liquid-fraction map as claim C1 words it: `0` if `T ≤ Ts`,
`1` if `T ≥ Tl`, else `(T − Ts) / (Tl − Ts)`. -/
def spec_liquid_ratio (m : Material) (T : ℚ) : ℚ :=
  if T ≤ m.solidus then 0
  else if m.liquidus ≤ T then 1
  else (T - m.solidus) / (m.liquidus - m.solidus)

/-- With solidus strictly below liquidus, the strict branch comparisons
of the code still realize the claim's non-strict piecewise map. -/
lemma liquid_ratio_eq_spec (m : Material) (T : ℚ)
    (h : m.solidus < m.liquidus) :
    liquid_ratio m T = some (spec_liquid_ratio m T) := by
  have hd : m.liquidus - m.solidus ≠ 0 := sub_ne_zero.mpr (ne_of_gt h)
  unfold liquid_ratio spec_liquid_ratio
  by_cases h1 : T < m.solidus
  · rw [if_pos h1, if_pos (le_of_lt h1)]
  · rw [if_neg h1]
    by_cases h2 : m.liquidus < T
    · rw [if_pos h2, if_neg (not_le.mpr (h.trans h2)), if_pos (le_of_lt h2)]
    · rw [if_neg h2, if_neg hd]
      by_cases h3 : T ≤ m.solidus
      · have hT : T = m.solidus := le_antisymm h3 (not_lt.mp h1)
        rw [if_pos h3]
        simp [hT]
      · rw [if_neg h3]
        by_cases h4 : m.liquidus ≤ T
        · have hT : T = m.liquidus := le_antisymm (not_lt.mp h2) h4
          rw [if_pos h4, hT, div_self hd]
        · rw [if_neg h4]

/-- C1: for a material with solidus strictly below liquidus, the update
kernel always succeeds and writes the liquid fraction as the piecewise
map of the claim: 0 for T ≤ solidus, 1 for T ≥ liquidus, the linear
interpolant strictly in between; in particular the strict branch
comparisons of the code still give 0 at T = solidus and 1 at
T = liquidus, through the division. -/
theorem update_writes_claimed_liquid_fraction (m : Material) (T : ℚ)
    (prev : MatState) (h : m.solidus < m.liquidus) :
    ∃ st, updateState m T prev = some st ∧ st.liquid = spec_liquid_ratio m T := by
  refine ⟨⟨spec_liquid_ratio m T,
      min (1 - spec_liquid_ratio m T) prev.powder,
      max (1 - spec_liquid_ratio m T - min (1 - spec_liquid_ratio m T) prev.powder) 0⟩,
    ?_, rfl⟩
  rw [updateState, liquid_ratio_eq_spec m T h]
  rfl

/-- Witness for C1 at solidus 0, liquidus 10, T = 5. -/
theorem update_writes_claimed_liquid_fraction_witness :
    ∃ st, updateState ⟨0, 10, 0, 0⟩ 5 ⟨0, 0, 1⟩ = some st ∧
      st.liquid = spec_liquid_ratio ⟨0, 10, 0, 0⟩ 5 :=
  update_writes_claimed_liquid_fraction ⟨0, 10, 0, 0⟩ 5 ⟨0, 0, 1⟩ (by norm_num)

/-- C2 counterexample: with solidus = liquidus = 1000 and T = 1000, the
update kernel reaches the interpolation branch and divides by zero
(`(1000 - 1000) / (1000 - 1000)`, IEEE `0/0`), so the liquid-fraction
computation is undefined rather than snapping to 0 or 1. -/
theorem liquid_ratio_degenerate_counterexample :
    liquid_ratio ⟨1000, 1000, 0, 0⟩ 1000 = none := by
  simp [liquid_ratio]

/-- C2 amended: when solidus = liquidus = c, the kernel yields 0 for
T strictly below c and 1 for T strictly above c, but at T exactly equal
to c the interpolation branch divides by zero and the result is
undefined (NaN), not 0 or 1. -/
theorem liquid_ratio_degenerate (m : Material) (T : ℚ)
    (h : m.liquidus = m.solidus) :
    (T < m.solidus → liquid_ratio m T = some 0) ∧
    (m.solidus < T → liquid_ratio m T = some 1) ∧
    (T = m.solidus → liquid_ratio m T = none) := by
  refine ⟨fun h1 => ?_, fun h2 => ?_, fun h3 => ?_⟩
  · rw [liquid_ratio, if_pos h1]
  · rw [liquid_ratio, if_neg (not_lt.mpr (le_of_lt h2)), if_pos (h ▸ h2)]
  · rw [liquid_ratio, if_neg (not_lt.mpr (le_of_eq h3.symm)),
      if_neg (not_lt.mpr (h ▸ le_of_eq h3)), if_pos (by rw [h, sub_self])]

/-- Witness for C2 (amended): solidus = liquidus = 5. -/
theorem liquid_ratio_degenerate_witness :
    liquid_ratio ⟨5, 5, 0, 0⟩ 3 = some 0 ∧ liquid_ratio ⟨5, 5, 0, 0⟩ 7 = some 1 :=
  ⟨(liquid_ratio_degenerate ⟨5, 5, 0, 0⟩ 3 rfl).1 (by norm_num),
   (liquid_ratio_degenerate ⟨5, 5, 0, 0⟩ 7 rfl).2.1 (by norm_num)⟩

/-- One update never increases the powder fraction: the written value is
`min (1 - liquid_ratio) prev.powder ≤ prev.powder`. -/
lemma updateState_powder_le (m : Material) (T : ℚ) (prev st : MatState)
    (h : updateState m T prev = some st) : st.powder ≤ prev.powder := by
  unfold updateState at h
  cases hl : liquid_ratio m T with
  | none => rw [hl] at h; exact absurd h (by simp)
  | some lr =>
    rw [hl] at h
    simp only [Option.map_some', Option.some.injEq] at h
    rw [← h]
    exact min_le_right _ _

/-- C3: across any sequence of update calls on a unit, the powder
fraction is non-increasing: each update writes
`powder = min (1 - liquid_ratio) previous_powder`, so powder is never
created, regardless of the temperature history. -/
theorem powder_nonincreasing (m : Material) (init final : MatState)
    (temps : List ℚ) (h : runUpdates m init temps = some final) :
    final.powder ≤ init.powder := by
  induction temps generalizing init with
  | nil =>
    rw [runUpdates] at h
    cases h
    exact le_refl _
  | cons T rest ih =>
    rw [runUpdates] at h
    cases hs : updateState m T init with
    | none => rw [hs] at h; exact absurd h (by simp)
    | some st =>
      rw [hs] at h
      exact le_trans (ih st h) (updateState_powder_le m T init st hs)

/-- Witness for C3: a powder unit fully melted by one update at
T = 20 above the liquidus. -/
theorem powder_nonincreasing_witness :
    (⟨1, 0, 0⟩ : MatState).powder ≤ (⟨0, 1, 0⟩ : MatState).powder :=
  powder_nonincreasing ⟨0, 10, 0, 0⟩ ⟨0, 1, 0⟩ ⟨1, 0, 0⟩ [20] (by
    simp [runUpdates, updateState, liquid_ratio]
    norm_num)

/-- With solidus strictly below liquidus the computed liquid ratio lies
in [0, 1]. -/
lemma spec_liquid_ratio_mem (m : Material) (T : ℚ)
    (h : m.solidus < m.liquidus) :
    0 ≤ spec_liquid_ratio m T ∧ spec_liquid_ratio m T ≤ 1 := by
  have hd : (0:ℚ) < m.liquidus - m.solidus := sub_pos.mpr h
  unfold spec_liquid_ratio
  by_cases h1 : T ≤ m.solidus
  · rw [if_pos h1]; norm_num
  · rw [if_neg h1]
    by_cases h2 : m.liquidus ≤ T
    · rw [if_pos h2]; norm_num
    · rw [if_neg h2]
      constructor
      · exact div_nonneg (sub_nonneg.mpr (le_of_lt (not_le.mp h1))) (le_of_lt hd)
      · rw [div_le_one hd]
        exact sub_le_sub_right (le_of_lt (not_le.mp h2)) _

/-- C4: after an update on a unit with previous powder fraction in
[0, 1] and a material with solidus strictly below liquidus, the three
written fractions each lie in [0, 1] and liquid + powder + solid sums
to exactly 1 (the clamp in `solid = max (1 - liquid - powder) 0` is
inactive because `powder ≤ 1 - liquid`). -/
theorem update_fractions_partition (m : Material) (T : ℚ)
    (prev st : MatState) (hp0 : 0 ≤ prev.powder) (_hp1 : prev.powder ≤ 1)
    (hs : m.solidus < m.liquidus) (h : updateState m T prev = some st) :
    (0 ≤ st.liquid ∧ st.liquid ≤ 1) ∧
    (0 ≤ st.powder ∧ st.powder ≤ 1) ∧
    (0 ≤ st.solid ∧ st.solid ≤ 1) ∧
    st.liquid + st.powder + st.solid = 1 := by
  rw [updateState, liquid_ratio_eq_spec m T hs] at h
  simp only [Option.map_some', Option.some.injEq] at h
  obtain ⟨hl0, hl1⟩ := spec_liquid_ratio_mem m T hs
  set lr := spec_liquid_ratio m T with hlr
  have hpr0 : 0 ≤ min (1 - lr) prev.powder :=
    le_min (by linarith) hp0
  have hprle : min (1 - lr) prev.powder ≤ 1 - lr := min_le_left _ _
  have hsr : 1 - lr - min (1 - lr) prev.powder ≥ 0 := by linarith
  rw [← h]
  refine ⟨⟨hl0, hl1⟩, ⟨hpr0, by linarith⟩, ⟨le_max_right _ _, ?_⟩, ?_⟩
  · simp only [max_eq_left hsr]
    linarith
  · simp only [max_eq_left hsr]
    ring

/-- Witness for C4: powder unit, solidus 0 < liquidus 10, T = 5. -/
theorem update_fractions_partition_witness :
    (0 ≤ (⟨1/2, 1/2, 0⟩ : MatState).liquid ∧ (⟨1/2, 1/2, 0⟩ : MatState).liquid ≤ 1) ∧
    (0 ≤ (⟨1/2, 1/2, 0⟩ : MatState).powder ∧ (⟨1/2, 1/2, 0⟩ : MatState).powder ≤ 1) ∧
    (0 ≤ (⟨1/2, 1/2, 0⟩ : MatState).solid ∧ (⟨1/2, 1/2, 0⟩ : MatState).solid ≤ 1) ∧
    (⟨1/2, 1/2, 0⟩ : MatState).liquid + (⟨1/2, 1/2, 0⟩ : MatState).powder +
      (⟨1/2, 1/2, 0⟩ : MatState).solid = 1 :=
  update_fractions_partition ⟨0, 10, 0, 0⟩ 5 ⟨0, 1, 0⟩ ⟨1/2, 1/2, 0⟩
    (by norm_num) (by norm_num) (by norm_num) (by
      simp [updateState, liquid_ratio]
      norm_num)

/-- The scan loop of `compute_property_from_table`
(MaterialProperty.templates.hh lines 1047-1056): starting at index `i`
with `fuel` entries left, return the first index at which
`T < breakpoint`, or the one-past-the-end index when none qualifies. -/
def scanAux (bp : ℕ → ℚ) (T : ℚ) (i : ℕ) : ℕ → ℕ
  | 0 => i
  | fuel + 1 => if T < bp i then i else scanAux bp T (i + 1) fuel

/-- First index `i < size` with `T < bp i`, else `size`; the value of
`i` after the scan loop of `compute_property_from_table`. -/
def scanIndex (bp : ℕ → ℚ) (T : ℚ) (size : ℕ) : ℕ :=
  scanAux bp T 0 size

/-- The table evaluator `MaterialProperty::compute_property_from_table`
(MaterialProperty.templates.hh lines 1032-1078), with the table stored
as its breakpoint column `bp`, value column `v` and entry count `size`
(`state_property_tables_view.extent(3)`):

  if (T <= bp[0]) return v[0];
  scan for first i with T < bp[i];
  if (i >= size - 1) return v[size - 1];
  return v[i-1] + (T - bp[i-1]) * (v[i] - v[i-1]) / (bp[i] - bp[i-1]); -/
def compute_property_from_table (size : ℕ) (bp v : ℕ → ℚ) (T : ℚ) : ℚ :=
  if T ≤ bp 0 then v 0
  else
    let i := scanIndex bp T size
    if size - 1 ≤ i then v (size - 1)
    else v (i - 1) + (T - bp (i - 1)) * (v i - v (i - 1)) / (bp i - bp (i - 1))

/-- The scan loop finds the first qualifying index in its window. -/
lemma scanAux_eq_of_first (bp : ℕ → ℚ) (T : ℚ) (i fuel k : ℕ)
    (hk1 : i ≤ k) (hk2 : k < i + fuel) (hT : T < bp k)
    (hmin : ∀ j, i ≤ j → j < k → ¬ T < bp j) :
    scanAux bp T i fuel = k := by
  induction fuel generalizing i with
  | zero => omega
  | succ n ih =>
    rw [scanAux]
    by_cases hi : T < bp i
    · rw [if_pos hi]
      by_contra hne
      exact hmin i (le_refl i) (lt_of_le_of_ne hk1 hne) hi
    · have hik : i ≠ k := fun hik => hi (hik ▸ hT)
      rw [if_neg hi]
      exact ih (i + 1) (by omega) (by omega)
        (fun j hj1 hj2 => hmin j (by omega) hj2)

/-- The scan loop runs off the end when no index qualifies. -/
lemma scanAux_eq_of_none (bp : ℕ → ℚ) (T : ℚ) (i fuel : ℕ)
    (hmin : ∀ j, i ≤ j → j < i + fuel → ¬ T < bp j) :
    scanAux bp T i fuel = i + fuel := by
  induction fuel generalizing i with
  | zero => rfl
  | succ n ih =>
    rw [scanAux, if_neg (hmin i (le_refl i) (by omega))]
    have := ih (i + 1) (fun j hj1 hj2 => hmin j (by omega) (by omega))
    omega

/-- For strictly ascending breakpoints the scan started above `bp 0`
stops exactly at the successor index of the breakpoint hit. -/
lemma scanIndex_at_breakpoint (size : ℕ) (bp : ℕ → ℚ) (k : ℕ)
    (hasc : ∀ i j, i < j → j < size → bp i < bp j)
    (hk : k + 1 < size) :
    scanIndex bp (bp k) size = k + 1 := by
  refine scanAux_eq_of_first bp (bp k) 0 size (k + 1) (by omega) (by omega)
    (hasc k (k + 1) (by omega) hk) ?_
  intro j hj1 hj2
  rcases Nat.lt_or_ge j k with hj | hj
  · exact not_lt.mpr (le_of_lt (hasc j k hj (by omega)))
  · have : j = k := by omega
    exact this ▸ lt_irrefl (bp k)

/-- The concrete strictly ascending, capacity-filling table used to
refute the interior-breakpoint pass-through consequence of C5:
breakpoints 0, 100, 200. -/
def cexBp : ℕ → ℚ := fun i => if i = 0 then 0 else if i = 1 then 100 else 200

/-- Values 10, 20, 30 for `cexBp`. -/
def cexV : ℕ → ℚ := fun i => if i = 0 then 10 else if i = 1 then 20 else 30

/-- C5 counterexample: in the strictly ascending size-3 table
(0,10), (100,20), (200,30), evaluating at the interior breakpoint 100
returns 30 (the right clamp, because the scan stops at the last index),
not that breakpoint's value 20. -/
theorem table_eval_interior_breakpoint_counterexample :
    cexBp 0 < cexBp 1 ∧ cexBp 1 < cexBp 2 ∧
    compute_property_from_table 3 cexBp cexV 100 = 30 ∧ cexV 1 = 20 := by
  refine ⟨by norm_num [cexBp], by norm_num [cexBp], ?_, by norm_num [cexV]⟩
  norm_num [compute_property_from_table, scanIndex, scanAux, cexBp, cexV]

/-- The padded storage of the table spec "0,10;100,20;200,20": three
parsed pairs, the last pair repeated up to the fixed capacity
(MaterialProperty.templates.hh lines 876-887). -/
def exBp : ℕ → ℚ := fun i => if i = 0 then 0 else if i = 1 then 100 else 200

/-- Value column of the stored table for "0,10;100,20;200,20". -/
def exV : ℕ → ℚ := fun i => if i = 0 then 10 else 20

/-- C5 amended: the table evaluator left-clamps at or below the first
breakpoint, right-clamps when every breakpoint is below T, passes
through the exact value at an interior breakpoint of a strictly
ascending table only up to the third-from-last index, right-clamps to
the last value at the second-to-last breakpoint, and on the stored
table of "0,10;100,20;200,20" (any capacity ≥ 3, padded with the last
pair) returns 20 at T = 150 and 15 at T = 50. -/
theorem table_eval_characterization :
    (∀ size : ℕ, ∀ bp v : ℕ → ℚ, ∀ T : ℚ, T ≤ bp 0 →
      compute_property_from_table size bp v T = v 0) ∧
    (∀ size : ℕ, ∀ bp v : ℕ → ℚ, ∀ T : ℚ, (∀ j, j < size → bp j < T) →
      compute_property_from_table size bp v T = v (size - 1)) ∧
    (∀ size : ℕ, ∀ bp v : ℕ → ℚ, ∀ k : ℕ,
      (∀ i j, i < j → j < size → bp i < bp j) → 0 < k → k + 2 < size →
      compute_property_from_table size bp v (bp k) = v k) ∧
    (∀ size : ℕ, ∀ bp v : ℕ → ℚ, ∀ k : ℕ,
      (∀ i j, i < j → j < size → bp i < bp j) → 0 < k → k + 2 = size →
      compute_property_from_table size bp v (bp k) = v (size - 1)) ∧
    (∀ size : ℕ, 3 ≤ size →
      compute_property_from_table size exBp exV 150 = 20 ∧
      compute_property_from_table size exBp exV 50 = 15) := by
  refine ⟨?_, ?_, ?_, ?_, ?_⟩
  · intro size bp v T hT
    rw [compute_property_from_table, if_pos hT]
  · intro size bp v T hT
    rcases Nat.eq_zero_or_pos size with h0 | h0
    · subst h0
      rw [compute_property_from_table]
      by_cases hb : T ≤ bp 0
      · rw [if_pos hb]
      · rw [if_neg hb]
        simp [scanIndex, scanAux]
    · rw [compute_property_from_table,
        if_neg (not_le.mpr (hT 0 h0))]
      have hs : scanIndex bp T size = size := by
        rw [scanIndex]
        have := scanAux_eq_of_none bp T 0 size
          (fun j hj1 hj2 => not_lt.mpr (le_of_lt (hT j (by omega))))
        omega
      simp only [hs]
      rw [if_pos (by omega)]
  · intro size bp v k hasc hk0 hks
    have hb0 : bp 0 < bp k := hasc 0 k hk0 (by omega)
    rw [compute_property_from_table, if_neg (not_le.mpr hb0)]
    have hs : scanIndex bp (bp k) size = k + 1 :=
      scanIndex_at_breakpoint size bp k hasc (by omega)
    simp only [hs]
    rw [if_neg (by omega)]
    have : k + 1 - 1 = k := by omega
    rw [this, sub_self, zero_mul, zero_div, add_zero]
  · intro size bp v k hasc hk0 hks
    have hb0 : bp 0 < bp k := hasc 0 k hk0 (by omega)
    rw [compute_property_from_table, if_neg (not_le.mpr hb0)]
    have hs : scanIndex bp (bp k) size = k + 1 :=
      scanIndex_at_breakpoint size bp k hasc (by omega)
    simp only [hs]
    rw [if_pos (by omega)]
  · intro size hsize
    constructor
    · rw [compute_property_from_table, if_neg (by norm_num [exBp])]
      have hs : scanIndex exBp 150 size = 2 := by
        refine scanAux_eq_of_first exBp 150 0 size 2 (by omega) (by omega)
          (by norm_num [exBp]) ?_
        intro j hj1 hj2
        interval_cases j <;> norm_num [exBp]
      simp only [hs]
      by_cases hlast : size - 1 ≤ 2
      · rw [if_pos hlast]
        have : size = 3 := by omega
        subst this
        norm_num [exV]
      · rw [if_neg hlast]
        norm_num [exBp, exV]
    · rw [compute_property_from_table, if_neg (by norm_num [exBp])]
      have hs : scanIndex exBp 50 size = 1 := by
        refine scanAux_eq_of_first exBp 50 0 size 1 (by omega) (by omega)
          (by norm_num [exBp]) ?_
        intro j hj1 hj2
        interval_cases j
        norm_num [exBp]
      simp only [hs]
      rw [if_neg (by omega)]
      norm_num [exBp, exV]

/-- A strictly ascending 4-entry breakpoint column 0, 1, 2, 3 used by
the C5 witness. -/
def wBp : ℕ → ℚ :=
  fun i => if i = 0 then 0 else if i = 1 then 1 else if i = 2 then 2 else 3

/-- Value column 5, 6, 7, 8 for `wBp`. -/
def wV : ℕ → ℚ :=
  fun i => if i = 0 then 5 else if i = 1 then 6 else if i = 2 then 7 else 8

/-- Witness for C5 (amended), instantiating the scenario conjunct at
capacity 3 and the pass-through conjunct on a concrete ascending
size-4 table at its interior breakpoint 1. -/
theorem table_eval_characterization_witness :
    (compute_property_from_table 3 exBp exV 150 = 20 ∧
      compute_property_from_table 3 exBp exV 50 = 15) ∧
    compute_property_from_table 4 wBp wV (wBp 1) = wV 1 :=
  ⟨table_eval_characterization.2.2.2.2 3 (by norm_num),
   table_eval_characterization.2.2.1 4 wBp wV 1
    (by
      intro i j hij hj
      interval_cases j <;> interval_cases i <;> norm_num [wBp])
    (by norm_num) (by norm_num)⟩

/-- One property curve per (material state, thermal property):
`c.liquid p` is the evaluation map `T ↦ evaluate(curve[liquid][p], T)`.
In the source the curve is either a stored table evaluated through
`compute_property_from_table` or a stored polynomial evaluated through
the `pow` loop; both instantiations are defined below. -/
structure Curves where
  liquid : ℕ → ℚ → ℚ
  powder : ℕ → ℚ → ℚ
  solid : ℕ → ℚ → ℚ

/-- The polynomial evaluation loop of `MaterialProperty::update`
(MaterialProperty.templates.hh lines 347-354):
`Σ_{i ≤ polynomial_order} coeff[i] · T^i`. -/
def polynomial_eval (order : ℕ) (coeff : ℕ → ℚ) (T : ℚ) : ℚ :=
  ∑ i ∈ Finset.range (order + 1), coeff i * T ^ i

/-- Curves built from stored tables, as used when `_use_table`. -/
def tableCurves (size : ℕ) (bpOf vOf : ℕ → ℕ → ℕ → ℚ) : Curves where
  liquid := fun p T => compute_property_from_table size (bpOf 0 p) (vOf 0 p) T
  powder := fun p T => compute_property_from_table size (bpOf 1 p) (vOf 1 p) T
  solid := fun p T => compute_property_from_table size (bpOf 2 p) (vOf 2 p) T

/-- Curves built from stored polynomials, as used otherwise. -/
def polyCurves (order : ℕ) (coeffOf : ℕ → ℕ → ℕ → ℚ) : Curves where
  liquid := fun p T => polynomial_eval order (coeffOf 0 p) T
  powder := fun p T => polynomial_eval order (coeffOf 1 p) T
  solid := fun p T => polynomial_eval order (coeffOf 2 p) T

/-- The state-fraction-weighted blend
`Σ_state fraction[state] × evaluate(curve[state][p], T)` accumulated
per property by the inner loops of `MaterialProperty::update`
(MaterialProperty.templates.hh lines 323-357). -/
def blended (st : MatState) (c : Curves) (T : ℚ) (p : ℕ) : ℚ :=
  st.liquid * c.liquid p T + st.powder * c.powder p T + st.solid * c.solid p T

/-- The property-accumulation loop over all thermal state properties
`0 ≤ p < nProps`, starting from the zero-initialized array
(`_property_values.set_zero()`). -/
def accumulateProperties (nProps : ℕ) (st : MatState) (c : Curves)
    (T : ℚ) : ℕ → ℚ :=
  fun p => if p < nProps then blended st c T p else 0

/-- The mushy-zone latent-heat addition of `MaterialProperty::update`
(MaterialProperty.templates.hh lines 359-375): when
`0 < liquid_ratio < 1`, add `Σ_state fraction[state] × latent_heat /
(liquidus − solidus)` to the specific-heat slot `sh`. -/
def mushyStep (m : Material) (st : MatState) (lr : ℚ) (sh : ℕ)
    (pv : ℕ → ℚ) : ℕ → ℚ :=
  if 0 < lr ∧ lr < 1 then
    fun p =>
      if p = sh then
        pv p + (st.liquid * m.latent_heat / (m.liquidus - m.solidus)
          + st.powder * m.latent_heat / (m.liquidus - m.solidus)
          + st.solid * m.latent_heat / (m.liquidus - m.solidus))
      else pv p
  else pv

/-- The radiation-coefficient write of `MaterialProperty::update`
(MaterialProperty.templates.hh lines 377-395): the slot `rad` is
overwritten (not accumulated) with
`emissivity × σ × (T + T∞)(T² + T∞²)`, reading the emissivity from the
current property-value array. -/
def radStep (sigma : ℚ) (m : Material) (T : ℚ) (emis rad : ℕ)
    (pv : ℕ → ℚ) : ℕ → ℚ :=
  fun p =>
    if p = rad then
      pv emis * sigma * (T + m.radiation_temperature_infty) *
        (T * T + m.radiation_temperature_infty * m.radiation_temperature_infty)
    else pv p

/-- The per-unit property-value array written by
`MaterialProperty::update` for a unit whose new phase fractions are
`st` (so `liquid_ratio = st.liquid`): zero-init, accumulate every
thermal property, add the mushy-zone correction, derive the radiation
coefficient. -/
def updatePropertyValues (sigma : ℚ) (m : Material) (c : Curves)
    (nProps sh emis rad : ℕ) (T : ℚ) (st : MatState) : ℕ → ℚ :=
  radStep sigma m T emis rad
    (mushyStep m st st.liquid sh (accumulateProperties nProps st c T))

/-- The per-unit accumulation of
`MaterialProperty::update_boundary_material_properties`
(MaterialProperty.templates.hh lines 400-491): the property-value
array is zero-reinitialized and only properties with index ≥ 3 are
accumulated; the phase fractions are read, never written. -/
def boundaryAccumulateProperties (nProps : ℕ) (st : MatState) (c : Curves)
    (T : ℚ) : ℕ → ℚ :=
  fun p => if 3 ≤ p ∧ p < nProps then blended st c T p else 0

/-- The boundary-restricted entry point, returning the (unchanged)
phase fractions together with the freshly written property values. -/
def update_boundary_material_properties (sigma : ℚ) (m : Material)
    (c : Curves) (nProps emis rad : ℕ) (T : ℚ) (st : MatState) :
    MatState × (ℕ → ℚ) :=
  (st, radStep sigma m T emis rad (boundaryAccumulateProperties nProps st c T))

/-- C6: the mushy-zone latent-heat correction to the specific-heat slot
(index `sh`, distinct from the radiation slot and within the thermal
properties) is applied exactly when `0 < liquid_ratio < 1`, adding
`Σ_state fraction[state] × latent_heat / (liquidus − solidus)`; at
liquid ratio exactly 0 or exactly 1 the specific-heat value is the
plain blend, with a correction of exactly 0. -/
theorem mushy_correction_iff (sigma : ℚ) (m : Material) (c : Curves)
    (nProps sh emis rad : ℕ) (T : ℚ) (st : MatState)
    (hsh : sh < nProps) (hne : sh ≠ rad) :
    updatePropertyValues sigma m c nProps sh emis rad T st sh
      = blended st c T sh
        + (if 0 < st.liquid ∧ st.liquid < 1 then
            st.liquid * m.latent_heat / (m.liquidus - m.solidus)
              + st.powder * m.latent_heat / (m.liquidus - m.solidus)
              + st.solid * m.latent_heat / (m.liquidus - m.solidus)
          else 0) ∧
    (st.liquid = 0 ∨ st.liquid = 1 →
      updatePropertyValues sigma m c nProps sh emis rad T st sh
        = blended st c T sh) := by
  have hbase :
      updatePropertyValues sigma m c nProps sh emis rad T st sh
        = blended st c T sh
          + (if 0 < st.liquid ∧ st.liquid < 1 then
              st.liquid * m.latent_heat / (m.liquidus - m.solidus)
                + st.powder * m.latent_heat / (m.liquidus - m.solidus)
                + st.solid * m.latent_heat / (m.liquidus - m.solidus)
            else 0) := by
    by_cases hm : 0 < st.liquid ∧ st.liquid < 1
    · simp [updatePropertyValues, radStep, mushyStep, accumulateProperties,
        hne, hsh, hm]
    · simp [updatePropertyValues, radStep, mushyStep, accumulateProperties,
        hne, hsh, hm]
  refine ⟨hbase, fun h01 => ?_⟩
  rw [hbase, if_neg ?_, add_zero]
  rcases h01 with h0 | h1
  · exact fun hm => absurd (h0 ▸ hm.1) (lt_irrefl 0)
  · exact fun hm => absurd (h1 ▸ hm.2) (lt_irrefl 1)

/-- Constant curves (value 2 for every state, property, temperature)
used by the C6 and C8 witnesses. -/
def cstCurves : Curves where
  liquid := fun _ _ => 2
  powder := fun _ _ => 2
  solid := fun _ _ => 2

/-- Witness for C6: half-liquid unit, solidus 1000, liquidus 1100,
latent heat 500, specific-heat slot 1 of 7 thermal properties,
radiation slot 5. -/
theorem mushy_correction_iff_witness :
    updatePropertyValues 1 ⟨1000, 1100, 500, 300⟩ cstCurves 7 1 4 5 1050
        ⟨1/2, 0, 1/2⟩ 1
      = blended ⟨1/2, 0, 1/2⟩ cstCurves 1050 1
        + (if 0 < (⟨1/2, 0, 1/2⟩ : MatState).liquid ∧
              (⟨1/2, 0, 1/2⟩ : MatState).liquid < 1 then
            (⟨1/2, 0, 1/2⟩ : MatState).liquid * 500 / (1100 - 1000)
              + (⟨1/2, 0, 1/2⟩ : MatState).powder * 500 / (1100 - 1000)
              + (⟨1/2, 0, 1/2⟩ : MatState).solid * 500 / (1100 - 1000)
          else 0) :=
  (mushy_correction_iff 1 ⟨1000, 1100, 500, 300⟩ cstCurves 7 1 4 5 1050
    ⟨1/2, 0, 1/2⟩ (by norm_num) (by norm_num)).1

/-- C8: after the blending loop, the radiation-heat-transfer slot `rad`
holds exactly `emissivity × σ × (T + T∞)(T² + T∞²)`, where the
emissivity factor is the state-fraction-weighted blend computed by the
accumulation step (slot `emis`, a thermal property distinct from the
specific-heat slot); the written value is independent of any stored
curve at the `rad` slot and is a plain write, not an accumulation. -/
theorem radiation_coef_derived (sigma : ℚ) (m : Material) (c : Curves)
    (nProps sh emis rad : ℕ) (T : ℚ) (st : MatState)
    (hemis : emis < nProps) (hne : emis ≠ sh) :
    updatePropertyValues sigma m c nProps sh emis rad T st rad
      = blended st c T emis * sigma * (T + m.radiation_temperature_infty) *
        (T * T + m.radiation_temperature_infty * m.radiation_temperature_infty) := by
  unfold updatePropertyValues radStep mushyStep accumulateProperties
  by_cases hm : 0 < st.liquid ∧ st.liquid < 1
  · rw [if_pos rfl, if_pos hm]
    simp only [if_neg hne, if_pos hemis]
  · rw [if_pos rfl, if_neg hm]
    simp only [if_pos hemis]

/-- Witness for C8: all-solid unit whose blended emissivity is 2,
T = 1000, T∞ = 300, σ = 1. -/
theorem radiation_coef_derived_witness :
    updatePropertyValues 1 ⟨1000, 1100, 500, 300⟩ cstCurves 7 1 4 5 1000
        ⟨0, 0, 1⟩ 5
      = blended ⟨0, 0, 1⟩ cstCurves 1000 4 * 1 * (1000 + 300) *
        (1000 * 1000 + 300 * 300) :=
  radiation_coef_derived 1 ⟨1000, 1100, 500, 300⟩ cstCurves 7 1 4 5 1000
    ⟨0, 0, 1⟩ (by norm_num) (by norm_num)

/-- C10: the boundary-restricted entry point leaves the phase-fraction
state untouched, zero-reinitializes the property array and accumulates
only properties of index ≥ 3 (plus the radiation-coefficient write at
slot `rad ≥ 3`); hence every property slot below 3 is exactly 0
afterwards, and every non-radiation slot in `[3, nProps)` holds the
plain state-weighted blend. -/
theorem boundary_update_frame (sigma : ℚ) (m : Material) (c : Curves)
    (nProps emis rad : ℕ) (T : ℚ) (st : MatState) (hrad : 3 ≤ rad) :
    (update_boundary_material_properties sigma m c nProps emis rad T st).1
      = st ∧
    (∀ p, p < 3 →
      (update_boundary_material_properties sigma m c nProps emis rad T st).2 p
        = 0) ∧
    (∀ p, 3 ≤ p → p < nProps → p ≠ rad →
      (update_boundary_material_properties sigma m c nProps emis rad T st).2 p
        = blended st c T p) := by
  refine ⟨rfl, fun p hp => ?_, fun p hp3 hpn hpr => ?_⟩
  · have h1 : p ≠ rad := by omega
    have h2 : ¬(3 ≤ p ∧ p < nProps) := by omega
    simp [update_boundary_material_properties, radStep,
      boundaryAccumulateProperties, h1, h2]
  · have h2 : 3 ≤ p ∧ p < nProps := ⟨hp3, hpn⟩
    simp [update_boundary_material_properties, radStep,
      boundaryAccumulateProperties, hpr, h2]

/-- Witness for C10: 7 thermal properties, emissivity slot 4, radiation
slot 5, on an all-solid unit. -/
theorem boundary_update_frame_witness :
    (update_boundary_material_properties 1 ⟨1000, 1100, 500, 300⟩ cstCurves
        7 4 5 400 ⟨0, 0, 1⟩).1 = ⟨0, 0, 1⟩ ∧
    (update_boundary_material_properties 1 ⟨1000, 1100, 500, 300⟩ cstCurves
        7 4 5 400 ⟨0, 0, 1⟩).2 0 = 0 ∧
    (update_boundary_material_properties 1 ⟨1000, 1100, 500, 300⟩ cstCurves
        7 4 5 400 ⟨0, 0, 1⟩).2 3 = blended ⟨0, 0, 1⟩ cstCurves 400 3 :=
  ⟨(boundary_update_frame 1 ⟨1000, 1100, 500, 300⟩ cstCurves 7 4 5 400
      ⟨0, 0, 1⟩ (by norm_num)).1,
   (boundary_update_frame 1 ⟨1000, 1100, 500, 300⟩ cstCurves 7 4 5 400
      ⟨0, 0, 1⟩ (by norm_num)).2.1 0 (by norm_num),
   (boundary_update_frame 1 ⟨1000, 1100, 500, 300⟩ cstCurves 7 4 5 400
      ⟨0, 0, 1⟩ (by norm_num)).2.2 3 (by norm_num) (by norm_num) (by norm_num)⟩

/-- The whitespace predicate used by `MaterialProperty::fill_properties`
(`std::isspace` in the default locale). -/
def isCppSpace (c : Char) : Bool :=
  c == ' ' || c == '\t' || c == '\n' || c == '\x0b' || c == '\x0c' || c == '\r'

/-- Whitespace removal before parsing
(MaterialProperty.templates.hh lines 837-841). -/
def stripSpaces (s : List Char) : List Char :=
  s.filter fun c => ! isCppSpace c

/-- Number of tokens `boost::split` produces when cutting `s` at every
occurrence of the delimiter `d` (one more than the number of
delimiters; empty tokens are kept). -/
def splitCount (d : Char) (s : List Char) : ℕ :=
  (s.filter fun c => c == d).length + 1

/-- The table-spec capacity check of `fill_properties`
(MaterialProperty.templates.hh lines 844-849):
`ASSERT_THROW(parsed_property_size <= table_size, ...)` on the
whitespace-stripped spec split at every `;`. `true` means the spec is
accepted, `false` that the fatal configuration error is raised. -/
def tableSpecAccepted (table_size : ℕ) (s : List Char) : Bool :=
  decide (splitCount ';' (stripSpaces s) ≤ table_size)

/-- The polynomial-spec capacity check of `fill_properties`
(MaterialProperty.templates.hh lines 908-914):
`ASSERT_THROW(parsed_property_size <= polynomial_order, ...)` on the
whitespace-stripped spec split at every `,`, although the storage has
`polynomial_order + 1` coefficient slots. -/
def polySpecAccepted (polynomial_order : ℕ) (s : List Char) : Bool :=
  decide (splitCount ',' (stripSpaces s) ≤ polynomial_order)

/-- C7 counterexample: with polynomial degree bound 4 (five stored
coefficient slots), the five-coefficient spec "0,0,0,0,0" exactly fills
the capacity yet is rejected by the `<= polynomial_order` check, while
the claim says exactly-filling specs are accepted. -/
theorem poly_spec_exact_fill_rejected :
    polySpecAccepted 4 ("0,0,0,0,0".data) = false ∧
    splitCount ',' (stripSpaces "0,0,0,0,0".data) = 4 + 1 := by
  constructor <;> rfl

/-- Stripping whitespace is idempotent. -/
lemma stripSpaces_idem (s : List Char) :
    stripSpaces (stripSpaces s) = stripSpaces s := by
  simp [stripSpaces, List.filter_filter]

/-- C7 amended: parsing raises the fatal configuration error exactly
when the whitespace-stripped spec exceeds the check bound: for tables,
more breakpoint/value pairs than the table capacity (an exactly-filling
table spec is accepted); for polynomials, more than `polynomial_order`
coefficients — one fewer than the `polynomial_order + 1` stored
coefficient slots — so a polynomial spec exactly filling the stored
slots is rejected. Whitespace never affects acceptance. -/
theorem spec_capacity_check (ts po : ℕ) (s : List Char) :
    (tableSpecAccepted ts s = false ↔ ts < splitCount ';' (stripSpaces s)) ∧
    (splitCount ';' (stripSpaces s) = ts → tableSpecAccepted ts s = true) ∧
    (polySpecAccepted po s = false ↔ po < splitCount ',' (stripSpaces s)) ∧
    (splitCount ',' (stripSpaces s) = po + 1 → polySpecAccepted po s = false) ∧
    tableSpecAccepted ts (stripSpaces s) = tableSpecAccepted ts s ∧
    polySpecAccepted po (stripSpaces s) = polySpecAccepted po s := by
  refine ⟨?_, ?_, ?_, ?_, ?_, ?_⟩
  · simp only [tableSpecAccepted, decide_eq_false_iff_not]
    omega
  · intro h
    simp [tableSpecAccepted, h]
  · simp only [polySpecAccepted, decide_eq_false_iff_not]
    omega
  · intro h
    simp [polySpecAccepted, h]
  · rw [tableSpecAccepted, tableSpecAccepted, stripSpaces_idem]
  · rw [polySpecAccepted, polySpecAccepted, stripSpaces_idem]

/-- Witness for C7 (amended): a one-pair table spec at capacity 1 is
accepted; a two-coefficient polynomial spec at degree bound 1 is
rejected even though it exactly fills the two stored slots. -/
theorem spec_capacity_check_witness :
    tableSpecAccepted 1 ("0,1".data) = true ∧
    polySpecAccepted 1 ("0,1".data) = false :=
  ⟨(spec_capacity_check 1 1 ("0,1".data)).2.1 (by rfl),
   (spec_capacity_check 1 1 ("0,1".data)).2.2.2.1 (by rfl)⟩

/-- The activation rule of the `MechanicalPhysics` constructor
(MechanicalPhysics.cc lines 41-53): active FE index 0 (real element)
when the cell's solid fraction exceeds 0.99, index 1 (`FE_Nothing`)
otherwise; the thermal state is not consulted. -/
def mechanical_fe_index_ctor (solid_ratio : ℚ) : ℕ :=
  if 99 / 100 < solid_ratio then 0 else 1

/-- The activation rule of `MechanicalPhysics::setup_dofs`
(MechanicalPhysics.cc lines 97-115): when the solid fraction exceeds
0.99 the cell inherits the thermal cell's active FE index, otherwise it
gets index 1 (`FE_Nothing`). -/
def mechanical_fe_index_setup (solid_ratio : ℚ) (thermal_fe_index : ℕ) : ℕ :=
  if 99 / 100 < solid_ratio then thermal_fe_index else 1

/-- The activation rule as claim C9 words it: index 0 exactly when the
solid fraction exceeds 0.99 and the thermal cell is active (thermal
index 0), else index 1. -/
def claim_fe_index (solid_ratio : ℚ) (thermal_fe_index : ℕ) : ℕ :=
  if 99 / 100 < solid_ratio ∧ thermal_fe_index = 0 then 0 else 1

/-- C9 counterexample: a fully solid cell whose thermal cell is
inactive (thermal FE index 1). The constructor pass assigns the real
element (index 0) because it never consults the thermal state, while
the claim requires the empty element (index 1) on every activation
pass including construction. -/
theorem mechanical_ctor_ignores_thermal :
    mechanical_fe_index_ctor 1 = 0 ∧ claim_fe_index 1 1 = 1 := by
  constructor
  · rw [mechanical_fe_index_ctor, if_pos (by norm_num)]
  · rw [claim_fe_index, if_neg (by norm_num)]

/-- C9 amended: on `setup_dofs` activation passes, where the thermal FE
index is 0 (active) or 1 (`FE_Nothing`), the mechanical cell receives
index 0 exactly when its solid fraction exceeds 0.99 and the thermal
cell is active, else index 1 — as the claim states; the constructor
pass, however, enables the cell solely on the solid fraction exceeding
0.99 and ignores thermal activity. -/
theorem mechanical_activation_rule (s : ℚ) (t : ℕ) (ht : t = 0 ∨ t = 1) :
    mechanical_fe_index_setup s t = claim_fe_index s t ∧
    (mechanical_fe_index_ctor s = 0 ↔ 99 / 100 < s) := by
  constructor
  · by_cases h : 99 / 100 < s
    · rcases ht with ht | ht <;> subst ht <;>
        simp [mechanical_fe_index_setup, claim_fe_index, h]
    · simp [mechanical_fe_index_setup, claim_fe_index, h]
  · by_cases h : 99 / 100 < s <;> simp [mechanical_fe_index_ctor, h]

/-- Witness for C9 (amended): fully solid cell with active thermal
cell. -/
theorem mechanical_activation_rule_witness :
    mechanical_fe_index_setup 1 0 = claim_fe_index 1 0 ∧
    (mechanical_fe_index_ctor 1 = 0 ↔ (99:ℚ) / 100 < 1) :=
  mechanical_activation_rule 1 0 (Or.inl rfl)

end Adamantine
